import Mathlib

/-!
Verification of the langx parser front end (package `parser`).

The Go source is shallowly embedded:

* The lexer is translated from the rule set handed to `regex.New` in
  `part_000` (rules tried in declaration order at each position, first
  match wins, as the participle regex lexer does).  Regular-expression
  alternation is leftmost-first (Go's regexp semantics), and `\b` is a
  word boundary over `[0-9A-Za-z_]`.
* The grammar is translated from the participle struct tags, one Lean
  parser per node type, with ordered choice (first success wins,
  failure rewinds the cursor), greedy repetition, and sequence.
* The visitor engine (`VisitFunc` / `Visit` / `TerminateRecursion`) is
  translated from the second section of `op_string.go`, including the
  Go dynamic semantics of the `accept` calls: invoking a value-receiver
  `accept` method through the `Node` interface on a typed nil pointer
  is a nil dereference panic, which the model surfaces as `TRes.fault`.
* Source positions (`Pos lexer.Position`) are not modelled on AST
  nodes; token/lex-error positions are modelled as character offsets.

Missing from src/ (modelled from the spec, marked as such below): the
expression node file (`Expr`, `Reference`, ...) and the
`fixupLexerDefinition` token-elision wrapper.
-/

namespace Langx

/-- Characters that are awkward to write literally under the style rules. -/
def dq : Char := Char.ofNat 34    -- double quote
def sq : Char := Char.ofNat 39    -- single quote
def btick : Char := Char.ofNat 96 -- backtick
def lbr : Char := Char.ofNat 123  -- left brace
def rbr : Char := Char.ofNat 125  -- right brace

/-- Token kinds, one per lexer rule in the `regex.New` rule set. -/
inductive TokKind where
  | comment | backslash | whitespace
  | modifier | keyword | ident | number | str | newline | operator | punct
  deriving DecidableEq, Repr

/-- A lexical token: kind, literal text and character offset. -/
structure Token where
  kind : TokKind
  text : String
  pos : Nat
  deriving DecidableEq, Repr

/-- `\w` (RE2 is ASCII-only): `[0-9A-Za-z_]`. -/
def isWordChar (c : Char) : Bool :=
  c.isAlpha || c.isDigit || c == '_'

/-- A `\b` before a word character holds iff the previous character
(`none` at the start of input) is not a word character. -/
def boundaryBefore (prev : Option Char) : Bool :=
  match prev with
  | none => true
  | some c => !isWordChar c

/-- A `\b` after a word character holds iff the next character (none at
end of input) is not a word character. -/
def boundaryAt : List Char → Bool
  | [] => true
  | c :: _ => !isWordChar c

/-- Rule `comment = //.*|(?s:/\*.*?\*/)`: line comment to (not
including) the next newline, or non-greedy block comment. -/
def matchLineComment : List Char → Nat
  | [] => 0
  | c :: cs => if c == '\n' then 0 else 1 + matchLineComment cs

/-- Scan for the closing `*/` (non-greedy `.*?` under `(?s:)`), returning
the number of characters up to and including it. -/
def matchBlockClose : List Char → Option Nat
  | [] => none
  | '*' :: '/' :: _ => some 2
  | _ :: cs => (matchBlockClose cs).map (· + 1)

def matchComment : List Char → Option Nat
  | '/' :: '/' :: cs => some (2 + matchLineComment cs)
  | '/' :: '*' :: cs => (matchBlockClose cs).map (· + 2)
  | _ => none

/-- Rule `backslash = \\`. -/
def matchBackslash : List Char → Option Nat
  | c :: _ => if c == '\\' then some 1 else none
  | [] => none

/-- Rule `whitespace = [\r\t ]+` (newline is a separate rule). -/
def wsCount : List Char → Nat
  | c :: cs => if c == '\r' || c == '\t' || c == ' ' then 1 + wsCount cs else 0
  | [] => 0

def matchWhitespace (cs : List Char) : Option Nat :=
  let n := wsCount cs
  if n == 0 then none else some n

/-- `\b(w1|w2|...)\b` for a fixed word list: leftmost-first over the
alternatives, each requiring the trailing word boundary.  All words
start with a letter, so the leading boundary is `boundaryBefore prev`. -/
def matchWords (words : List String) (prev : Option Char) (cs : List Char) : Option Nat :=
  if boundaryBefore prev then
    words.foldl
      (fun acc w =>
        match acc with
        | some n => some n
        | none =>
            if w.data.isPrefixOf cs && boundaryAt (cs.drop w.length) then
              some w.length
            else none)
      none
  else none

/-- Rule `Modifier = \b(pub|override|static)\b`. -/
def matchModifier (prev : Option Char) (cs : List Char) : Option Nat :=
  matchWords ["pub", "override", "static"] prev cs

/-- Rule `Keyword = \b(in|switch|case|default|if|enum|alias|let|fn|break|continue|for|throws|import|new)\b`. -/
def matchKeyword (prev : Option Char) (cs : List Char) : Option Nat :=
  matchWords
    ["in", "switch", "case", "default", "if", "enum", "alias", "let", "fn",
     "break", "continue", "for", "throws", "import", "new"] prev cs

/-- Rule `Ident = \b([[:alpha:]_]\w*)\b` ([[:alpha:]] is ASCII letters). -/
def wordCount : List Char → Nat
  | c :: cs => if isWordChar c then 1 + wordCount cs else 0
  | [] => 0

def matchIdent (prev : Option Char) (cs : List Char) : Option Nat :=
  if boundaryBefore prev then
    match cs with
    | c :: rest =>
        if c.isAlpha || c == '_' then some (1 + wordCount rest) else none
    | [] => none
  else none

/-- Rule `Number = \b(\d+(\.\d+)?)\b` with backtracking over the
optional fractional part when the trailing boundary fails. -/
def digitCount : List Char → Nat
  | c :: cs => if c.isDigit then 1 + digitCount cs else 0
  | [] => 0

def matchNumber (prev : Option Char) (cs : List Char) : Option Nat :=
  if boundaryBefore prev then
    let d1 := digitCount cs
    if d1 == 0 then none
    else
      let afterInt := cs.drop d1
      match afterInt with
      | '.' :: rest =>
          let d2 := digitCount rest
          if d2 != 0 && boundaryAt (rest.drop d2) then some (d1 + 1 + d2)
          else if boundaryAt afterInt then some d1 else none
      | _ => if boundaryAt afterInt then some d1 else none
  else none

/-- Body of the double-quoted alternative `"(\\.|[^"])*"` after the
opening quote: returns the length consumed *including* the closing
quote.  The star prefers `\\.` (backslash + any non-newline character)
over `[^"]`, falling back to `[^"]` matching the lone backslash when
the greedy choice cannot complete (leftmost-first semantics).  A bare
`"` ends the star and closes the literal. -/
def dqBody : List Char → Option Nat
  | [] => none
  | '\x22' :: _ => some 1
  | '\\' :: [] => none
  | '\\' :: '\n' :: cs => (dqBody ('\n' :: cs)).map (· + 1)
  | '\\' :: c2 :: cs2 =>
      (match dqBody cs2 with
       | some n => some (n + 2)
       | none => (dqBody (c2 :: cs2)).map (· + 1))
  | _ :: cs => (dqBody cs).map (· + 1)

/-- Single-quoted alternative `'[^']*'`: no escapes. -/
def sqBody : List Char → Option Nat
  | [] => none
  | c :: cs => if c == sq then some 1 else (sqBody cs).map (· + 1)

/-- Rule `String = "(\\.|[^"])*"|'[^']*'`. -/
def matchString : List Char → Option Nat
  | c :: cs =>
      if c == dq then (dqBody cs).map (· + 1)
      else if c == sq then (sqBody cs).map (· + 1)
      else none
  | [] => none

/-- Rule `Newline = \n`. -/
def matchNewline : List Char → Option Nat
  | c :: _ => if c == '\n' then some 1 else none
  | [] => none

/-- Rule `Operator = ->|%=|>=|<=|\^=|&&|\|\||==|!=|\+=|-=|\*=|/=|[-=+*/<>%^!]`:
every two-character operator is an alternative ahead of the
single-character class. -/
def twoCharOps : List (Char × Char) :=
  [('-', '>'), ('%', '='), ('>', '='), ('<', '='), ('^', '='), ('&', '&'),
   ('|', '|'), ('=', '='), ('!', '='), ('+', '='), ('-', '='), ('*', '='),
   ('/', '=')]

def oneCharOps : List Char := ['-', '=', '+', '*', '/', '<', '>', '%', '^', '!']

def matchOperator : List Char → Option Nat
  | c1 :: c2 :: _ =>
      if twoCharOps.contains (c1, c2) then some 2
      else if oneCharOps.contains c1 then some 1 else none
  | c1 :: [] => if oneCharOps.contains c1 then some 1 else none
  | [] => none

/-- Rule `Punct = []`~[()@#${}:;?.,]` (a character class). -/
def punctChars : List Char :=
  [']', btick, '~', '[', '(', ')', '@', '#', '$', lbr, rbr, ':', ';', '?', '.', ',']

def matchPunct : List Char → Option Nat
  | c :: _ => if punctChars.contains c then some 1 else none
  | [] => none

/-- One lexing step: the rules tried in declaration order, first match
wins.  Returns the token kind and matched length, or `none` (lexical
error at this position). -/
def lexStep (prev : Option Char) (cs : List Char) : Option (TokKind × Nat) :=
  match matchComment cs with
  | some n => some (.comment, n)
  | none =>
  match matchBackslash cs with
  | some n => some (.backslash, n)
  | none =>
  match matchWhitespace cs with
  | some n => some (.whitespace, n)
  | none =>
  match matchModifier prev cs with
  | some n => some (.modifier, n)
  | none =>
  match matchKeyword prev cs with
  | some n => some (.keyword, n)
  | none =>
  match matchIdent prev cs with
  | some n => some (.ident, n)
  | none =>
  match matchNumber prev cs with
  | some n => some (.number, n)
  | none =>
  match matchString cs with
  | some n => some (.str, n)
  | none =>
  match matchNewline cs with
  | some n => some (.newline, n)
  | none =>
  match matchOperator cs with
  | some n => some (.operator, n)
  | none =>
  match matchPunct cs with
  | some n => some (.punct, n)
  | none => none

/-- A lexical error carries the offset of the offending character. -/
structure LexErr where
  pos : Nat
  deriving DecidableEq, Repr

/-- The lexer loop.  `prev` is the character immediately before the
current position (for `\b`), `pos` the current offset.  Fuel bounds the
number of steps; every rule match is non-empty, so `length + 1` fuel
always suffices. -/
def lexGo : Nat → Option Char → Nat → List Char → Except LexErr (List Token)
  | 0, _, pos, _ => .error ⟨pos⟩
  | _ + 1, _, _, [] => .ok []
  | fuel + 1, prev, pos, cs =>
      match lexStep prev cs with
      | none => .error ⟨pos⟩
      | some (k, n) =>
          let n := max n 1
          let text := String.mk (cs.take n)
          match lexGo fuel (cs.take n).getLast? (pos + n) (cs.drop n) with
          | .error e => .error e
          | .ok ts => .ok (⟨k, text, pos⟩ :: ts)

/-- Lex a whole string into the raw token stream. -/
def lexString (s : String) : Except LexErr (List Token) :=
  lexGo (s.length + 1) none 0 s.data

/-- Modelled from the spec: `fixupLexerDefinition` is not under src/.
Per §4.1 comment and whitespace tokens "are produced internally but
elided before the grammar sees the stream" (lower-cased rules, which
also covers `backslash`), and per the §9 open question the `Newline`
token is treated as elided like whitespace, since no grammar rule in
src/ references it. -/
def elided (k : TokKind) : Bool :=
  match k with
  | .comment | .backslash | .whitespace | .newline => true
  | _ => false

def visibleTokens (ts : List Token) : List Token :=
  ts.filter (fun t => !elided t.kind)

/-- Kind/text view of a token list (positions dropped), used to state
lexer-level claims. -/
def kindText (ts : List Token) : List (TokKind × String) :=
  ts.map (fun t => (t.kind, t.text))

/-!
## AST model

Translated from the struct definitions in `part_000`.  Go `*T` fields
that the grammar always populates (plain `@@` captures) are modelled as
plain fields; optional captures (`( ... )?` / `@@?`) as `Option`; Go
slices as `List`.  The `Pos lexer.Position` field of every node is not
modelled.  Go field `Type` is rendered `Typ` (`Type` is reserved in
Lean).
-/

/-- The `Modifiers` slice (captured `@Modifier*` token texts).  The
defining file is not under src/; only the capture sites are. -/
def Modifiers := List String

/-- Modelled from the spec: the expression node file (`Reference`,
`Expr`, `Unary`, `Literal`, ...) is not under src/.  §3 describes
"dotted/indexed references"; for the identifier-only expressions the
claims exercise, a reference is modelled as a bare name. -/
structure Reference where
  name : String

/-- Modelled from the spec: `Expr` ("operator-precedence expression
structure") is not under src/.  It is modelled as a wrapper around a
single `Reference`, which is the only expression shape the claims
exercise. -/
structure Expr where
  ref : Reference

structure TypeParamDecl where
  Name : String
  Constraints : List Reference

structure TypeDecl where
  Typ : String
  TypeParameter : List TypeParamDecl

structure Parameters where
  Names : List String
  Typ : Reference

structure VarDeclAsgn where
  Name : String
  Typ : Option Reference
  Default : Option Expr

structure VarDecl where
  Vars : List VarDeclAsgn

structure CaseDecl where
  Name : String
  Typ : Option TypeDecl

structure EnumCase where
  Case : String
  Var : String

structure ReturnStmt where
  Value : Option Expr

structure CaseSelect where
  EnumCase : Option EnumCase
  ExprCase : Option Expr

structure ImportDecl where
  Alias : String
  Import : String

mutual

inductive Block where
  | mk (Statements : List Stmt)

inductive Stmt where
  | mk (Return : Option ReturnStmt) (If : Option IfStmt) (For : Option ForStmt)
       (Switch : Option SwitchStmt) (Block : Option Block) (VarDecl : Option VarDecl)
       (FuncDecl : Option FuncDecl) (ClassDecl : Option ClassDecl)
       (EnumDecl : Option EnumDecl) (Expression : Option Expr)

inductive IfStmt where
  | mk (Condition : Expr) (Main : Block) (Else : Option Block)

inductive ForStmt where
  | mk (Target : Reference) (Source : Expr) (Body : Block)

inductive SwitchStmt where
  | mk (Target : Expr) (Cases : List CaseStmt)

inductive CaseStmt where
  | mk (Default : Bool) (Case : Option CaseSelect) (Body : List Stmt)

inductive FuncDecl where
  | mk (Name : String) (Parameters : List Parameters) (Throws : Bool)
       (Return : Option Reference) (Body : Block)

inductive InitialiserDecl where
  | mk (Parameters : List Parameters) (Throws : Bool) (Body : Block)

inductive ClassDecl where
  | mk (Typ : TypeDecl) (Members : List ClassMember)

inductive ClassMember where
  | mk (Modifiers : Modifiers) (VarDecl : Option VarDecl) (FuncDecl : Option FuncDecl)
       (ClassDecl : Option ClassDecl) (EnumDecl : Option EnumDecl)
       (InitialiserDecl : Option InitialiserDecl)

inductive EnumDecl where
  | mk (Typ : TypeDecl) (Members : List EnumMember)

inductive EnumMember where
  | mk (Modifiers : Modifiers) (CaseDecl : Option CaseDecl) (VarDecl : Option VarDecl)
       (FuncDecl : Option FuncDecl) (ClassDecl : Option ClassDecl)
       (EnumDecl : Option EnumDecl) (InitialiserDecl : Option InitialiserDecl)

end

structure RootDecl where
  Modifiers : Modifiers
  Class : Option ClassDecl
  Import : Option ImportDecl
  Enum : Option EnumDecl
  Var : Option VarDecl
  Func : Option FuncDecl

structure AST where
  Declarations : List RootDecl

-- Projections for the mutual inductives.

def Block.Statements : Block → List Stmt
  | .mk s => s

def Stmt.Return : Stmt → Option ReturnStmt
  | .mk r _ _ _ _ _ _ _ _ _ => r

def Stmt.If : Stmt → Option IfStmt
  | .mk _ i _ _ _ _ _ _ _ _ => i

def Stmt.For : Stmt → Option ForStmt
  | .mk _ _ f _ _ _ _ _ _ _ => f

def Stmt.Switch : Stmt → Option SwitchStmt
  | .mk _ _ _ s _ _ _ _ _ _ => s

def Stmt.Block : Stmt → Option Block
  | .mk _ _ _ _ b _ _ _ _ _ => b

def Stmt.VarDecl : Stmt → Option VarDecl
  | .mk _ _ _ _ _ v _ _ _ _ => v

def Stmt.FuncDecl : Stmt → Option FuncDecl
  | .mk _ _ _ _ _ _ f _ _ _ => f

def Stmt.ClassDecl : Stmt → Option ClassDecl
  | .mk _ _ _ _ _ _ _ c _ _ => c

def Stmt.EnumDecl : Stmt → Option EnumDecl
  | .mk _ _ _ _ _ _ _ _ e _ => e

def Stmt.Expression : Stmt → Option Expr
  | .mk _ _ _ _ _ _ _ _ _ e => e

def IfStmt.Condition : IfStmt → Expr
  | .mk c _ _ => c

def IfStmt.Main : IfStmt → Block
  | .mk _ m _ => m

def IfStmt.Else : IfStmt → Option Block
  | .mk _ _ e => e

def ForStmt.Target : ForStmt → Reference
  | .mk t _ _ => t

def ForStmt.Source : ForStmt → Expr
  | .mk _ s _ => s

def ForStmt.Body : ForStmt → Block
  | .mk _ _ b => b

def SwitchStmt.Target : SwitchStmt → Expr
  | .mk t _ => t

def SwitchStmt.Cases : SwitchStmt → List CaseStmt
  | .mk _ c => c

def CaseStmt.Default : CaseStmt → Bool
  | .mk d _ _ => d

def CaseStmt.Case : CaseStmt → Option CaseSelect
  | .mk _ c _ => c

def CaseStmt.Body : CaseStmt → List Stmt
  | .mk _ _ b => b

def FuncDecl.Name : FuncDecl → String
  | .mk n _ _ _ _ => n

def FuncDecl.Parameters : FuncDecl → List Parameters
  | .mk _ p _ _ _ => p

def FuncDecl.Throws : FuncDecl → Bool
  | .mk _ _ t _ _ => t

def FuncDecl.Return : FuncDecl → Option Reference
  | .mk _ _ _ r _ => r

def FuncDecl.Body : FuncDecl → Block
  | .mk _ _ _ _ b => b

def InitialiserDecl.Parameters : InitialiserDecl → List Parameters
  | .mk p _ _ => p

def InitialiserDecl.Throws : InitialiserDecl → Bool
  | .mk _ t _ => t

def InitialiserDecl.Body : InitialiserDecl → Block
  | .mk _ _ b => b

def ClassDecl.Typ : ClassDecl → TypeDecl
  | .mk t _ => t

def ClassDecl.Members : ClassDecl → List ClassMember
  | .mk _ m => m

def ClassMember.Modifiers : ClassMember → Modifiers
  | .mk m _ _ _ _ _ => m

def ClassMember.VarDecl : ClassMember → Option VarDecl
  | .mk _ v _ _ _ _ => v

def ClassMember.FuncDecl : ClassMember → Option FuncDecl
  | .mk _ _ f _ _ _ => f

def ClassMember.ClassDecl : ClassMember → Option ClassDecl
  | .mk _ _ _ c _ _ => c

def ClassMember.EnumDecl : ClassMember → Option EnumDecl
  | .mk _ _ _ _ e _ => e

def ClassMember.InitialiserDecl : ClassMember → Option InitialiserDecl
  | .mk _ _ _ _ _ i => i

def EnumDecl.Typ : EnumDecl → TypeDecl
  | .mk t _ => t

def EnumDecl.Members : EnumDecl → List EnumMember
  | .mk _ m => m

def EnumMember.Modifiers : EnumMember → Modifiers
  | .mk m _ _ _ _ _ _ => m

def EnumMember.CaseDecl : EnumMember → Option CaseDecl
  | .mk _ c _ _ _ _ _ => c

def EnumMember.VarDecl : EnumMember → Option VarDecl
  | .mk _ _ v _ _ _ _ => v

def EnumMember.FuncDecl : EnumMember → Option FuncDecl
  | .mk _ _ _ f _ _ _ => f

def EnumMember.ClassDecl : EnumMember → Option ClassDecl
  | .mk _ _ _ _ c _ _ => c

def EnumMember.EnumDecl : EnumMember → Option EnumDecl
  | .mk _ _ _ _ _ e _ => e

def EnumMember.InitialiserDecl : EnumMember → Option InitialiserDecl
  | .mk _ _ _ _ _ _ i => i

/-!
## The `Decl` capability and its resolvers

`Decl` is the Go interface implemented by the seven node types carrying
a `decl()` method; each resolver is the switch from the source, with
the `panic` default branch modelled as `none`.
-/

inductive Decl where
  | caseDecl (d : CaseDecl)
  | varDecl (d : VarDecl)
  | funcDecl (d : FuncDecl)
  | classDecl (d : ClassDecl)
  | enumDecl (d : EnumDecl)
  | initialiserDecl (d : InitialiserDecl)
  | importDecl (d : ImportDecl)

/-- `(*RootDecl).Decl` from `part_000`: arms tested in the order Class,
Import, Enum, Var, Func; the default branch is `panic("?")`. -/
def RootDecl.Decl (r : RootDecl) : Option Decl :=
  match r.Class with
  | some c => some (.classDecl c)
  | none =>
  match r.Import with
  | some i => some (.importDecl i)
  | none =>
  match r.Enum with
  | some e => some (.enumDecl e)
  | none =>
  match r.Var with
  | some v => some (.varDecl v)
  | none =>
  match r.Func with
  | some f => some (.funcDecl f)
  | none => none

/-- `(*EnumMember).Decl` from `part_000`: arms tested in the order
CaseDecl, VarDecl, FuncDecl, ClassDecl, InitialiserDecl — the
`EnumDecl` arm is absent from the switch, so a populated nested
`EnumDecl` falls through to the `panic("??")` default (`none`). -/
def EnumMember.Decl (e : EnumMember) : Option Decl :=
  match e.CaseDecl with
  | some c => some (.caseDecl c)
  | none =>
  match e.VarDecl with
  | some v => some (.varDecl v)
  | none =>
  match e.FuncDecl with
  | some f => some (.funcDecl f)
  | none =>
  match e.ClassDecl with
  | some c => some (.classDecl c)
  | none =>
  match e.InitialiserDecl with
  | some i => some (.initialiserDecl i)
  | none => none

/-- `(*ClassMember).Decl` from `part_000`: VarDecl, FuncDecl,
ClassDecl, EnumDecl, InitialiserDecl; default `panic("??")`. -/
def ClassMember.Decl (c : ClassMember) : Option Decl :=
  match c.VarDecl with
  | some v => some (.varDecl v)
  | none =>
  match c.FuncDecl with
  | some f => some (.funcDecl f)
  | none =>
  match c.ClassDecl with
  | some cd => some (.classDecl cd)
  | none =>
  match c.EnumDecl with
  | some e => some (.enumDecl e)
  | none =>
  match c.InitialiserDecl with
  | some i => some (.initialiserDecl i)
  | none => none

/-!
## Grammar / parser

Translated from the participle struct tags: sequence, ordered choice
(alternatives in declaration order, first success wins, failure rewinds
the token cursor) and greedy repetition, per §4.2.  A parser maps a
token list to `none` (failure) or a value and the remaining tokens.
Quoted literals in tags match a token by its text, regardless of kind;
`@Kind` captures match by token kind.  `mkPB` ties the mutually
recursive rules together with a fuel bound (one unit per rule-nesting
level), which only needs to be large enough for the input at hand.
-/

def Parser (α : Type) : Type := List Token → Option (α × List Token)

def pPure (a : α) : Parser α := fun ts => some (a, ts)

def pSeq (p : Parser α) (q : α → Parser β) : Parser β := fun ts =>
  match p ts with
  | some (a, rest) => q a rest
  | none => none

def pTok (k : TokKind) : Parser Token := fun ts =>
  match ts with
  | t :: rest => if t.kind == k then some (t, rest) else none
  | [] => none

def pLit (s : String) : Parser Unit := fun ts =>
  match ts with
  | t :: rest => if t.text == s then some ((), rest) else none
  | [] => none

def pOpt (p : Parser α) : Parser (Option α) := fun ts =>
  match p ts with
  | some (a, rest) => some (some a, rest)
  | none => some (none, ts)

/-- Optional match captured as a `bool` (`@"throws"?`, `";"?`). -/
def pOptB (p : Parser α) : Parser Bool := fun ts =>
  match p ts with
  | some (_, rest) => some (true, rest)
  | none => some (false, ts)

/-- Greedy zero-or-more (`@@*`), bounded by fuel. -/
def star : Nat → Parser α → Parser (List α)
  | 0, _ => pPure []
  | f + 1, p => fun ts =>
      match p ts with
      | none => some ([], ts)
      | some (a, rest) =>
          match star f p rest with
          | some (as, rest2) => some (a :: as, rest2)
          | none => none

/-- `@@ ( sep @@ )*`. -/
def sepBy1 (f : Nat) (p : Parser α) (sep : Parser Unit) : Parser (List α) :=
  pSeq p fun a =>
  pSeq (star f (pSeq sep fun _ => p)) fun as =>
  pPure (a :: as)

/-- `( @@ ( sep @@ )* sep? )?` — the body-with-optional-trailing-separator
shape shared by class bodies, enum bodies, blocks and case bodies. -/
def bodyOpt (f : Nat) (p : Parser α) (sep : Parser Unit) : Parser (List α) :=
  pSeq (pOpt (pSeq (sepBy1 f p sep) fun as => pSeq (pOptB sep) fun _ => pPure as))
    fun o => pPure (o.getD [])

/-- String spellings of the brace punctuation tokens. -/
def lbrS : String := String.mk [lbr]
def rbrS : String := String.mk [rbr]

/-- The bundle of all grammar rules (one field per node type). -/
structure PB where
  pReference : Parser Reference
  pExpr : Parser Expr
  pTypeParamDecl : Parser TypeParamDecl
  pTypeDecl : Parser TypeDecl
  pParameters : Parser Parameters
  pVarDeclAsgn : Parser VarDeclAsgn
  pVarDecl : Parser VarDecl
  pCaseDecl : Parser CaseDecl
  pEnumCase : Parser EnumCase
  pReturnStmt : Parser ReturnStmt
  pCaseSelect : Parser CaseSelect
  pImportDecl : Parser ImportDecl
  pBlock : Parser Block
  pStmt : Parser Stmt
  pIfStmt : Parser IfStmt
  pForStmt : Parser ForStmt
  pSwitchStmt : Parser SwitchStmt
  pCaseStmt : Parser CaseStmt
  pFuncDecl : Parser FuncDecl
  pInitialiserDecl : Parser InitialiserDecl
  pClassDecl : Parser ClassDecl
  pClassMember : Parser ClassMember
  pEnumDecl : Parser EnumDecl
  pEnumMember : Parser EnumMember
  pRootDecl : Parser RootDecl
  pAST : Parser AST

/-- Modelled from the spec: grammar for the missing `Reference` node
(an identifier reference). -/
def pReferenceF : Parser Reference :=
  pSeq (pTok .ident) fun t => pPure ⟨t.text⟩

/-- Modelled from the spec: grammar for the missing `Expr` node,
restricted to the single-identifier expressions the claims use. -/
def pExprF (prev : PB) : Parser Expr :=
  pSeq prev.pReference fun r => pPure ⟨r⟩

/-- `@Ident ( ":" @@ ( "," @@ )* )?` -/
def pTypeParamDeclF (f : Nat) (prev : PB) : Parser TypeParamDecl :=
  pSeq (pTok .ident) fun n =>
  pSeq (pOpt (pSeq (pLit ":") fun _ => sepBy1 f prev.pReference (pLit ","))) fun cs =>
  pPure ⟨n.text, cs.getD []⟩

/-- `@Ident ( "<" @@ ( "," @@ )* ","? ">" )?` -/
def pTypeDeclF (f : Nat) (prev : PB) : Parser TypeDecl :=
  pSeq (pTok .ident) fun n =>
  pSeq (pOpt (pSeq (pLit "<") fun _ =>
              pSeq (sepBy1 f prev.pTypeParamDecl (pLit ",")) fun tps =>
              pSeq (pOptB (pLit ",")) fun _ =>
              pSeq (pLit ">") fun _ => pPure tps)) fun tps =>
  pPure ⟨n.text, tps.getD []⟩

/-- `@Ident ("," @Ident)* ":" @@` -/
def pParametersF (f : Nat) (prev : PB) : Parser Parameters :=
  pSeq (sepBy1 f (pTok .ident) (pLit ",")) fun ns =>
  pSeq (pLit ":") fun _ =>
  pSeq prev.pReference fun r =>
  pPure ⟨ns.map (·.text), r⟩

/-- `@Ident ( ":" @@ )? ( "=" @@ )?` -/
def pVarDeclAsgnF (prev : PB) : Parser VarDeclAsgn :=
  pSeq (pTok .ident) fun n =>
  pSeq (pOpt (pSeq (pLit ":") fun _ => prev.pReference)) fun ty =>
  pSeq (pOpt (pSeq (pLit "=") fun _ => prev.pExpr)) fun df =>
  pPure ⟨n.text, ty, df⟩

/-- `"let" @@ ( "," @@ )*` -/
def pVarDeclF (f : Nat) (prev : PB) : Parser VarDecl :=
  pSeq (pLit "let") fun _ =>
  pSeq (sepBy1 f prev.pVarDeclAsgn (pLit ",")) fun vs =>
  pPure ⟨vs⟩

/-- `"case" @Ident ( "(" @@ ")" )?` -/
def pCaseDeclF (prev : PB) : Parser CaseDecl :=
  pSeq (pLit "case") fun _ =>
  pSeq (pTok .ident) fun n =>
  pSeq (pOpt (pSeq (pLit "(") fun _ =>
              pSeq prev.pTypeDecl fun t =>
              pSeq (pLit ")") fun _ => pPure t)) fun ty =>
  pPure ⟨n.text, ty⟩

/-- `"." @Ident ( "(" @Ident ")" )?` -/
def pEnumCaseF : Parser EnumCase :=
  pSeq (pLit ".") fun _ =>
  pSeq (pTok .ident) fun c =>
  pSeq (pOpt (pSeq (pLit "(") fun _ =>
              pSeq (pTok .ident) fun v =>
              pSeq (pLit ")") fun _ => pPure v)) fun v =>
  pPure ⟨c.text, (v.map (·.text)).getD ""⟩

/-- `"return" @@?` -/
def pReturnStmtF (prev : PB) : Parser ReturnStmt :=
  pSeq (pLit "return") fun _ =>
  pSeq (pOpt prev.pExpr) fun v =>
  pPure ⟨v⟩

/-- `EnumCase | Expr` (ordered choice, `CaseSelect` arms). -/
def pCaseSelectF (prev : PB) : Parser CaseSelect := fun ts =>
  match prev.pEnumCase ts with
  | some (ec, rest) => some (⟨some ec, none⟩, rest)
  | none =>
  match prev.pExpr ts with
  | some (e, rest) => some (⟨none, some e⟩, rest)
  | none => none

/-- `"import" @Ident? @String` -/
def pImportDeclF : Parser ImportDecl :=
  pSeq (pLit "import") fun _ =>
  pSeq (pOpt (pTok .ident)) fun al =>
  pSeq (pTok .str) fun s =>
  pPure ⟨(al.map (·.text)).getD "", s.text⟩

/-- `"{" ( @@ ( ";" @@ )* ";"? )? "}"` -/
def pBlockF (f : Nat) (prev : PB) : Parser Block :=
  pSeq (pLit lbrS) fun _ =>
  pSeq (bodyOpt f prev.pStmt (pLit ";")) fun ss =>
  pSeq (pLit rbrS) fun _ =>
  pPure (Block.mk ss)

/-- The ten `Stmt` alternatives in tag order: Return, If, For, Switch,
Block, VarDecl, FuncDecl, ClassDecl, EnumDecl, Expression (last). -/
def pStmtF (prev : PB) : Parser Stmt := fun ts =>
  match prev.pReturnStmt ts with
  | some (r, rest) =>
      some (Stmt.mk (some r) none none none none none none none none none, rest)
  | none =>
  match prev.pIfStmt ts with
  | some (i, rest) =>
      some (Stmt.mk none (some i) none none none none none none none none, rest)
  | none =>
  match prev.pForStmt ts with
  | some (fo, rest) =>
      some (Stmt.mk none none (some fo) none none none none none none none, rest)
  | none =>
  match prev.pSwitchStmt ts with
  | some (sw, rest) =>
      some (Stmt.mk none none none (some sw) none none none none none none, rest)
  | none =>
  match prev.pBlock ts with
  | some (b, rest) =>
      some (Stmt.mk none none none none (some b) none none none none none, rest)
  | none =>
  match prev.pVarDecl ts with
  | some (v, rest) =>
      some (Stmt.mk none none none none none (some v) none none none none, rest)
  | none =>
  match prev.pFuncDecl ts with
  | some (fd, rest) =>
      some (Stmt.mk none none none none none none (some fd) none none none, rest)
  | none =>
  match prev.pClassDecl ts with
  | some (c, rest) =>
      some (Stmt.mk none none none none none none none (some c) none none, rest)
  | none =>
  match prev.pEnumDecl ts with
  | some (e, rest) =>
      some (Stmt.mk none none none none none none none none (some e) none, rest)
  | none =>
  match prev.pExpr ts with
  | some (e, rest) =>
      some (Stmt.mk none none none none none none none none none (some e), rest)
  | none => none

/-- `"if" @@ @@ ( "else" @@ )?` -/
def pIfStmtF (prev : PB) : Parser IfStmt :=
  pSeq (pLit "if") fun _ =>
  pSeq prev.pExpr fun c =>
  pSeq prev.pBlock fun m =>
  pSeq (pOpt (pSeq (pLit "else") fun _ => prev.pBlock)) fun e =>
  pPure (IfStmt.mk c m e)

/-- `"for" @@ "in" @@ @@` -/
def pForStmtF (prev : PB) : Parser ForStmt :=
  pSeq (pLit "for") fun _ =>
  pSeq prev.pReference fun t =>
  pSeq (pLit "in") fun _ =>
  pSeq prev.pExpr fun s =>
  pSeq prev.pBlock fun b =>
  pPure (ForStmt.mk t s b)

/-- `"switch" @@ "{" @@* "}"` -/
def pSwitchStmtF (f : Nat) (prev : PB) : Parser SwitchStmt :=
  pSeq (pLit "switch") fun _ =>
  pSeq prev.pExpr fun t =>
  pSeq (pLit lbrS) fun _ =>
  pSeq (star f prev.pCaseStmt) fun cs =>
  pSeq (pLit rbrS) fun _ =>
  pPure (SwitchStmt.mk t cs)

/-- `( @"default" | "case" @@ ) ":" ( @@ ( ";" @@ )* ";"? )?` -/
def pCaseStmtF (f : Nat) (prev : PB) : Parser CaseStmt :=
  pSeq (fun ts =>
    match pLit "default" ts with
    | some (_, rest) => some ((true, (none : Option CaseSelect)), rest)
    | none =>
    match (pSeq (pLit "case") fun _ => prev.pCaseSelect) ts with
    | some (cs, rest) => some ((false, some cs), rest)
    | none => none) fun dc =>
  pSeq (pLit ":") fun _ =>
  pSeq (bodyOpt f prev.pStmt (pLit ";")) fun body =>
  pPure (CaseStmt.mk dc.1 dc.2 body)

/-- `"fn" @Ident "(" ( @@ ( "," @@ )* )? ","? ")" @"throws"? ( ":" @@ )? @@` -/
def pFuncDeclF (f : Nat) (prev : PB) : Parser FuncDecl :=
  pSeq (pLit "fn") fun _ =>
  pSeq (pTok .ident) fun n =>
  pSeq (pLit "(") fun _ =>
  pSeq (pOpt (sepBy1 f prev.pParameters (pLit ","))) fun ps =>
  pSeq (pOptB (pLit ",")) fun _ =>
  pSeq (pLit ")") fun _ =>
  pSeq (pOptB (pLit "throws")) fun th =>
  pSeq (pOpt (pSeq (pLit ":") fun _ => prev.pReference)) fun ret =>
  pSeq prev.pBlock fun b =>
  pPure (FuncDecl.mk n.text (ps.getD []) th ret b)

/-- `"init" "(" ( @@ ( "," @@ )* )? ","? ")" @"throws"? @@` -/
def pInitialiserDeclF (f : Nat) (prev : PB) : Parser InitialiserDecl :=
  pSeq (pLit "init") fun _ =>
  pSeq (pLit "(") fun _ =>
  pSeq (pOpt (sepBy1 f prev.pParameters (pLit ","))) fun ps =>
  pSeq (pOptB (pLit ",")) fun _ =>
  pSeq (pLit ")") fun _ =>
  pSeq (pOptB (pLit "throws")) fun th =>
  pSeq prev.pBlock fun b =>
  pPure (InitialiserDecl.mk (ps.getD []) th b)

/-- `"class" @@ "{" ( @@ ( ";" @@ )* ";"? )? "}"` -/
def pClassDeclF (f : Nat) (prev : PB) : Parser ClassDecl :=
  pSeq (pLit "class") fun _ =>
  pSeq prev.pTypeDecl fun t =>
  pSeq (pLit lbrS) fun _ =>
  pSeq (bodyOpt f prev.pClassMember (pLit ";")) fun ms =>
  pSeq (pLit rbrS) fun _ =>
  pPure (ClassDecl.mk t ms)

/-- `@Modifier* ( VarDecl | FuncDecl | ClassDecl | EnumDecl | InitialiserDecl )` -/
def pClassMemberF (f : Nat) (prev : PB) : Parser ClassMember :=
  pSeq (star f (pTok .modifier)) fun mods => fun ts =>
  let m := mods.map (·.text)
  match prev.pVarDecl ts with
  | some (v, rest) => some (ClassMember.mk m (some v) none none none none, rest)
  | none =>
  match prev.pFuncDecl ts with
  | some (fd, rest) => some (ClassMember.mk m none (some fd) none none none, rest)
  | none =>
  match prev.pClassDecl ts with
  | some (c, rest) => some (ClassMember.mk m none none (some c) none none, rest)
  | none =>
  match prev.pEnumDecl ts with
  | some (e, rest) => some (ClassMember.mk m none none none (some e) none, rest)
  | none =>
  match prev.pInitialiserDecl ts with
  | some (i, rest) => some (ClassMember.mk m none none none none (some i), rest)
  | none => none

/-- `"enum" @@ "{" ( @@ ( ";" @@ )* ";"? )? "}"` -/
def pEnumDeclF (f : Nat) (prev : PB) : Parser EnumDecl :=
  pSeq (pLit "enum") fun _ =>
  pSeq prev.pTypeDecl fun t =>
  pSeq (pLit lbrS) fun _ =>
  pSeq (bodyOpt f prev.pEnumMember (pLit ";")) fun ms =>
  pSeq (pLit rbrS) fun _ =>
  pPure (EnumDecl.mk t ms)

/-- `@Modifier* ( CaseDecl | VarDecl | FuncDecl | ClassDecl | EnumDecl | InitialiserDecl )` -/
def pEnumMemberF (f : Nat) (prev : PB) : Parser EnumMember :=
  pSeq (star f (pTok .modifier)) fun mods => fun ts =>
  let m := mods.map (·.text)
  match prev.pCaseDecl ts with
  | some (c, rest) => some (EnumMember.mk m (some c) none none none none none, rest)
  | none =>
  match prev.pVarDecl ts with
  | some (v, rest) => some (EnumMember.mk m none (some v) none none none none, rest)
  | none =>
  match prev.pFuncDecl ts with
  | some (fd, rest) => some (EnumMember.mk m none none (some fd) none none none, rest)
  | none =>
  match prev.pClassDecl ts with
  | some (c, rest) => some (EnumMember.mk m none none none (some c) none none, rest)
  | none =>
  match prev.pEnumDecl ts with
  | some (e, rest) => some (EnumMember.mk m none none none none (some e) none, rest)
  | none =>
  match prev.pInitialiserDecl ts with
  | some (i, rest) => some (EnumMember.mk m none none none none none (some i), rest)
  | none => none

/-- `@Modifier* ( ClassDecl ";"? | ImportDecl ";"? | EnumDecl ";"? |
VarDecl ";" | FuncDecl ";"? )` — the `let` arm requires its terminator,
the other four take an optional one. -/
def pRootDeclF (f : Nat) (prev : PB) : Parser RootDecl :=
  pSeq (star f (pTok .modifier)) fun mods => fun ts =>
  let m := mods.map (·.text)
  match (pSeq prev.pClassDecl fun c => pSeq (pOptB (pLit ";")) fun _ => pPure c) ts with
  | some (c, rest) => some (RootDecl.mk m (some c) none none none none, rest)
  | none =>
  match (pSeq pImportDeclF fun i => pSeq (pOptB (pLit ";")) fun _ => pPure i) ts with
  | some (i, rest) => some (RootDecl.mk m none (some i) none none none, rest)
  | none =>
  match (pSeq prev.pEnumDecl fun e => pSeq (pOptB (pLit ";")) fun _ => pPure e) ts with
  | some (e, rest) => some (RootDecl.mk m none none (some e) none none, rest)
  | none =>
  match (pSeq prev.pVarDecl fun v => pSeq (pLit ";") fun _ => pPure v) ts with
  | some (v, rest) => some (RootDecl.mk m none none none (some v) none, rest)
  | none =>
  match (pSeq prev.pFuncDecl fun fd => pSeq (pOptB (pLit ";")) fun _ => pPure fd) ts with
  | some (fd, rest) => some (RootDecl.mk m none none none none (some fd), rest)
  | none => none

/-- `@@*` -/
def pASTF (f : Nat) (prev : PB) : Parser AST :=
  pSeq (star f prev.pRootDecl) fun ds => pPure (AST.mk ds)

def pFail : Parser α := fun _ => none

def pbFail : PB :=
  ⟨pFail, pFail, pFail, pFail, pFail, pFail, pFail, pFail, pFail, pFail,
   pFail, pFail, pFail, pFail, pFail, pFail, pFail, pFail, pFail, pFail,
   pFail, pFail, pFail, pFail, pFail, pFail⟩

def mkPB : Nat → PB
  | 0 => pbFail
  | f + 1 =>
    let prev := mkPB f
    { pReference := pReferenceF
      pExpr := pExprF prev
      pTypeParamDecl := pTypeParamDeclF f prev
      pTypeDecl := pTypeDeclF f prev
      pParameters := pParametersF f prev
      pVarDeclAsgn := pVarDeclAsgnF prev
      pVarDecl := pVarDeclF f prev
      pCaseDecl := pCaseDeclF prev
      pEnumCase := pEnumCaseF
      pReturnStmt := pReturnStmtF prev
      pCaseSelect := pCaseSelectF prev
      pImportDecl := pImportDeclF
      pBlock := pBlockF f prev
      pStmt := pStmtF prev
      pIfStmt := pIfStmtF prev
      pForStmt := pForStmtF prev
      pSwitchStmt := pSwitchStmtF f prev
      pCaseStmt := pCaseStmtF f prev
      pFuncDecl := pFuncDeclF f prev
      pInitialiserDecl := pInitialiserDeclF f prev
      pClassDecl := pClassDeclF f prev
      pClassMember := pClassMemberF f prev
      pEnumDecl := pEnumDeclF f prev
      pEnumMember := pEnumMemberF f prev
      pRootDecl := pRootDeclF f prev
      pAST := pASTF f prev }

/-!
## Entry points

Go's `Parse`/`ParseString` allocate `ast := &AST{}` up front and return
that same non-nil pointer together with the parse outcome
(`return ast, parser.ParseString(s, ast)`): the first component below
is `Option AST` to record that the pointer could in principle have been
nil, and the definitions always return `some`.  participle populates
the AST in place and requires the whole token stream to be consumed.
-/

/-- Unescape a captured double-quoted `String` token (the
`participle.Unquote()` option); single-quoted text only loses its
quotes (no escape processing, per the lexer rule `'[^']*'`). -/
def unqEsc : List Char → List Char
  | [] => []
  | '\\' :: c :: cs =>
      (if c == 'n' then '\n' else if c == 'r' then '\r'
       else if c == 't' then '\t' else c) :: unqEsc cs
  | c :: cs => c :: unqEsc cs

def unquoteText (s : String) : String :=
  match s.data with
  | c :: rest =>
      if c == dq then String.mk (unqEsc rest.dropLast)
      else if c == sq then String.mk rest.dropLast
      else s
  | [] => s

def unquoteTok (t : Token) : Token :=
  if t.kind == .str then { t with text := unquoteText t.text } else t

/-- Lex, elide, unquote: the token stream the grammar consumes. -/
def grammarTokens (s : String) : Except LexErr (List Token) :=
  (lexString s).map (fun ts => (visibleTokens ts).map unquoteTok)

inductive PErr where
  | lexErr (pos : Nat)
  | parseErr
  deriving DecidableEq

/-- Fuel that comfortably covers the grammar-rule nesting depth for a
given token stream. -/
def fuelFor (ts : List Token) : Nat := ts.length * 4 + 64

def ParseString (s : String) : Option AST × Option PErr :=
  match grammarTokens s with
  | .error e => (some (AST.mk []), some (.lexErr e.pos))
  | .ok ts =>
      match (mkPB (fuelFor ts)).pAST ts with
      | some (a, []) => (some a, none)
      | some (a, _ :: _) => (some a, some .parseErr)
      | none => (some (AST.mk []), some .parseErr)

/-- `Parse(r io.Reader)` — identical to `ParseString` once the stream
has been read into a buffer. -/
def Parse (s : String) : Option AST × Option PErr :=
  ParseString s

/-- Did the parse succeed? -/
def parseOk (s : String) : Bool :=
  (ParseString s).2.isNone

/-!
## Visitor engine

Translated from the second section of `op_string.go`.  A `GNode` is a
value of the Go `Node` interface; `nilRef k` is a typed nil pointer of
a node type whose `accept` has a pointer receiver (such a value passes
`VisitFunc`'s `node == nil` test, `accept` runs with a nil receiver and
hands the typed nil to the visitor; its continuation faults when it
touches a field).  An absent optional child whose node type has a
*value-receiver* `accept` (`Block`, `TypeDecl`, `CaseSelect`,
`EnumCase`) never reaches the visitor at all: the dynamic dispatch
`node.accept(visit)` dereferences the nil pointer, a panic, modelled as
a `panicPoint` in the child list and `TRes.fault` as the outcome.

Visitor errors are `VErr` (`terminate` is the `TerminateRecursion`
sentinel, `user n` any other non-nil error); a traversal outcome is
`TRes.done r` (the returned `error`) or `TRes.fault` (a panic).  The
engine also records the order in which the visitor function is invoked
— the first component of `M` — which is what the Go visitor observes.
-/

/-- Node types with pointer-receiver `accept` methods that occur as
optional (nilable) children.  Their files are not under src/; the
pointer receivers are taken from the `Visitor` interface, whose
`VisitExpr`/`VisitReference` methods receive pointers (every node type
visited by pointer in src/ has a pointer-receiver `accept`). -/
inductive NilKind where
  | reference | expr
  deriving DecidableEq

/-- A Go `Node` interface value handed to a visitor. -/
inductive GNode where
  | ast (a : AST)
  | rootDecl (r : RootDecl)
  | importDecl (i : ImportDecl)
  | enumDecl (e : EnumDecl)
  | enumMember (m : EnumMember)
  | caseDecl (c : CaseDecl)
  | classDecl (c : ClassDecl)
  | classMember (m : ClassMember)
  | initialiserDecl (i : InitialiserDecl)
  | typeDecl (t : TypeDecl)
  | typeParamDecl (t : TypeParamDecl)
  | parameters (p : Parameters)
  | varDecl (v : VarDecl)
  | varDeclAsgn (v : VarDeclAsgn)
  | stmt (s : Stmt)
  | block (b : Block)
  | forStmt (f : ForStmt)
  | ifStmt (i : IfStmt)
  | switchStmt (s : SwitchStmt)
  | caseStmt (c : CaseStmt)
  | caseSelect (c : CaseSelect)
  | enumCase (e : EnumCase)
  | returnStmt (r : ReturnStmt)
  | funcDecl (f : FuncDecl)
  | expr (e : Expr)
  | reference (r : Reference)
  | nilRef (k : NilKind)

/-- Node kinds, for stating visit orders. -/
inductive Kind where
  | ast | rootDecl | importDecl | enumDecl | enumMember | caseDecl
  | classDecl | classMember | initialiserDecl | typeDecl | typeParamDecl
  | parameters | varDecl | varDeclAsgn | stmt | block | forStmt | ifStmt
  | switchStmt | caseStmt | caseSelect | enumCase | returnStmt | funcDecl
  | expr | reference | nilRefK
  deriving DecidableEq, Repr

def kindOf : GNode → Kind
  | .ast _ => .ast
  | .rootDecl _ => .rootDecl
  | .importDecl _ => .importDecl
  | .enumDecl _ => .enumDecl
  | .enumMember _ => .enumMember
  | .caseDecl _ => .caseDecl
  | .classDecl _ => .classDecl
  | .classMember _ => .classMember
  | .initialiserDecl _ => .initialiserDecl
  | .typeDecl _ => .typeDecl
  | .typeParamDecl _ => .typeParamDecl
  | .parameters _ => .parameters
  | .varDecl _ => .varDecl
  | .varDeclAsgn _ => .varDeclAsgn
  | .stmt _ => .stmt
  | .block _ => .block
  | .forStmt _ => .forStmt
  | .ifStmt _ => .ifStmt
  | .switchStmt _ => .switchStmt
  | .caseStmt _ => .caseStmt
  | .caseSelect _ => .caseSelect
  | .enumCase _ => .enumCase
  | .returnStmt _ => .returnStmt
  | .funcDecl _ => .funcDecl
  | .expr _ => .expr
  | .reference _ => .reference
  | .nilRef _ => .nilRefK

def isNilRef : GNode → Bool
  | .nilRef _ => true
  | _ => false

/-- The `Decl` interface value returned by a resolver, as a `Node`. -/
def gOfDecl : Decl → GNode
  | .caseDecl d => .caseDecl d
  | .varDecl d => .varDecl d
  | .funcDecl d => .funcDecl d
  | .classDecl d => .classDecl d
  | .enumDecl d => .enumDecl d
  | .initialiserDecl d => .initialiserDecl d
  | .importDecl d => .importDecl d

/-- Visitor errors: the `TerminateRecursion` sentinel or any other
non-nil error. -/
inductive VErr where
  | terminate
  | user (n : Nat)
  deriving DecidableEq

/-- `var TerminateRecursion = errors.New("no recurse")`. -/
def TerminateRecursion : VErr := .terminate

/-- Traversal outcome: the `error` the walk returns, or a panic. -/
inductive TRes where
  | done (r : Option VErr)
  | fault
  deriving DecidableEq

/-- One element of a node's child sequence: a child `Node` handed to
`VisitFunc`, or a point at which the continuation panics (nil
dereference / resolver `panic`). -/
inductive CItem where
  | child (g : GNode)
  | panicPoint

/-- Engine result: the raw-visitor invocations in order, and the outcome. -/
def M : Type := List GNode × TRes

/-- A raw `VisitorFunc`: receives the node and the continuation
(`Next`).  Calling the continuation with `none` recurses into the
children; with `some e` it returns `e` and skips them. -/
def RawV : Type := GNode → (Option VErr → M) → M

/-- The per-node child sequences, one per `accept` method in the
source, in the source's call order.  `panicPoint`s mark the nil
dereferences and resolver panics described above. -/
def childrenOf : GNode → List CItem
  | .ast a => a.Declarations.map (fun d => .child (.rootDecl d))
  | .rootDecl r =>
      match r.Decl with
      | some d => [.child (gOfDecl d)]
      | none => [.panicPoint]
  | .importDecl _ => []
  | .enumDecl e =>
      .child (.typeDecl e.Typ) :: e.Members.map (fun m => .child (.enumMember m))
  | .enumMember m =>
      match m.Decl with
      | some d => [.child (gOfDecl d)]
      | none => [.panicPoint]
  | .caseDecl c =>
      match c.Typ with
      | some t => [.child (.typeDecl t)]
      | none => [.panicPoint]
  | .classDecl c =>
      .child (.typeDecl c.Typ) :: c.Members.map (fun m => .child (.classMember m))
  | .classMember m =>
      match m.Decl with
      | some d => [.child (gOfDecl d)]
      | none => [.panicPoint]
  | .initialiserDecl i =>
      i.Parameters.map (fun p => .child (.parameters p)) ++ [.child (.block i.Body)]
  | .typeDecl t => t.TypeParameter.map (fun tp => .child (.typeParamDecl tp))
  | .typeParamDecl t => t.Constraints.map (fun c => .child (.reference c))
  | .parameters p => [.child (.reference p.Typ)]
  | .varDecl v => v.Vars.map (fun a => .child (.varDeclAsgn a))
  | .varDeclAsgn v =>
      [match v.Typ with
       | some r => .child (.reference r)
       | none => .child (.nilRef .reference),
       match v.Default with
       | some e => .child (.expr e)
       | none => .child (.nilRef .expr)]
  | .stmt s =>
      match s.Return with
      | some r => [.child (.returnStmt r)]
      | none =>
      match s.If with
      | some i => [.child (.ifStmt i)]
      | none =>
      match s.For with
      | some f => [.child (.forStmt f)]
      | none =>
      match s.Switch with
      | some sw => [.child (.switchStmt sw)]
      | none =>
      match s.Block with
      | some b => [.child (.block b)]
      | none =>
      match s.VarDecl with
      | some v => [.child (.varDecl v)]
      | none =>
      match s.FuncDecl with
      | some f => [.child (.funcDecl f)]
      | none =>
      match s.ClassDecl with
      | some c => [.child (.classDecl c)]
      | none =>
      match s.EnumDecl with
      | some e => [.child (.enumDecl e)]
      | none =>
      match s.Expression with
      | some e => [.child (.expr e)]
      | none => [.panicPoint]
  | .block b => b.Statements.map (fun s => .child (.stmt s))
  | .forStmt f =>
      [.child (.reference f.Target), .child (.expr f.Source), .child (.block f.Body)]
  | .ifStmt i =>
      [.child (.expr i.Condition), .child (.block i.Main),
       match i.Else with
       | some b => .child (.block b)
       | none => .panicPoint]
  | .switchStmt s =>
      .child (.expr s.Target) :: s.Cases.map (fun c => .child (.caseStmt c))
  | .caseStmt c =>
      (match c.Case with
       | some cs => CItem.child (.caseSelect cs)
       | none => CItem.panicPoint) :: c.Body.map (fun s => .child (.stmt s))
  | .caseSelect c =>
      [match c.EnumCase with
       | some e => .child (.enumCase e)
       | none => .panicPoint,
       match c.ExprCase with
       | some e => .child (.expr e)
       | none => .child (.nilRef .expr)]
  | .enumCase _ => []
  | .returnStmt r =>
      [match r.Value with
       | some e => .child (.expr e)
       | none => .child (.nilRef .expr)]
  | .funcDecl f =>
      f.Parameters.map (fun p => .child (.parameters p)) ++
      [match f.Return with
       | some r => .child (.reference r)
       | none => .child (.nilRef .reference),
       .child (.block f.Body)]
  | .expr e => [.child (.reference e.ref)]
  | .reference _ => []
  | .nilRef _ => [.panicPoint]

/-- A traversal work item: a single node, or a child sequence. -/
inductive VTask where
  | node (g : GNode)
  | seqT (items : List CItem)

/-- The traversal engine.  `node g`: invoke the visitor on `g` with the
continuation; the continuation returns a non-nil error directly and
otherwise walks the children in order, stopping at the first error and
propagating panics.  Fuel only bounds depth and is irrelevant for any
sufficiently large value. -/
def visitAux : Nat → VTask → RawV → M
  | 0, _, _ => ([], .fault)
  | _ + 1, .seqT [], _ => ([], .done none)
  | _ + 1, .seqT (.panicPoint :: _), _ => ([], .fault)
  | fuel + 1, .seqT (.child g :: rest), v =>
      let m := visitAux fuel (.node g) v
      match m.2 with
      | .done none =>
          let m2 := visitAux fuel (.seqT rest) v
          (m.1 ++ m2.1, m2.2)
      | .done (some e) => (m.1, .done (some e))
      | .fault => (m.1, .fault)
  | fuel + 1, .node g, v =>
      let m := v g (fun err =>
        match err with
        | some e => ([], .done (some e))
        | none => visitAux fuel (.seqT (childrenOf g)) v)
      (g :: m.1, m.2)

/-- `VisitFunc(node, visit)`: the raw traversal. -/
def VisitFunc (fuel : Nat) (g : GNode) (v : RawV) : M :=
  visitAux fuel (.node g) v

/-- A typed visitor, collapsed to one function over node kinds (the
engine dispatches `VisitAST`/`VisitBlock`/... by a type switch; an
unknown kind is impossible here because `GNode` is closed). -/
def TV : Type := GNode → Option VErr

/-- The `VisitorFunc` closure that `Visit` builds around a typed
visitor: typed nils are skipped before dispatch (the `reflect` check),
`TerminateRecursion` is swallowed without calling the continuation
(children pruned, traversal continues), any other outcome is passed to
the continuation. -/
def typedRawV (tv : TV) : RawV := fun g next =>
  if isNilRef g then ([], .done none)
  else
    match tv g with
    | some .terminate => ([], .done none)
    | none => next none
    | some (.user n) => next (some (.user n))

/-- `Visit(node, visitor)`: the typed traversal. -/
def Visit (fuel : Nat) (g : GNode) (tv : TV) : M :=
  visitAux fuel (.node g) (typedRawV tv)

/-- The sequence of typed-visitor-method invocations: every raw
invocation except the skipped typed nils. -/
def typedKinds (m : M) : List Kind :=
  (m.1.filter (fun g => !isNilRef g)).map kindOf

/-!
## Support definitions for the stated properties
-/

/-- The AST a successful parse populates (the zero AST otherwise). -/
def astOf (s : String) : AST :=
  ((ParseString s).1).getD (AST.mk [])

/-- Parse a single statement with the `Stmt` rule. -/
def stmtOf (s : String) : Option Stmt :=
  match grammarTokens s with
  | .ok ts => ((mkPB (fuelFor ts)).pStmt ts).map (·.1)
  | .error _ => none

/-- `DefaultVisitor`: every method is a no-op returning nil. -/
def DefaultVisitor : TV := fun _ => none

/-- A raw visitor that always continues into the children. -/
def rawGo : RawV := fun _ next => next none

/-- A typed visitor returning the prune sentinel at `ClassDecl` nodes. -/
def tvPrune : TV := fun g =>
  if kindOf g == .classDecl then some TerminateRecursion else none

/-- A typed visitor returning an ordinary error at `ClassDecl` nodes. -/
def tvErr : TV := fun g =>
  if kindOf g == .classDecl then some (.user 7) else none

/-- Number of populated arms of a `Stmt` union value. -/
def armsPopulated (s : Stmt) : Nat :=
  s.Return.isSome.toNat + s.If.isSome.toNat + s.For.isSome.toNat +
  s.Switch.isSome.toNat + s.Block.isSome.toNat + s.VarDecl.isSome.toNat +
  s.FuncDecl.isSome.toNat + s.ClassDecl.isSome.toNat + s.EnumDecl.isSome.toNat +
  s.Expression.isSome.toNat

/-- The first member of the single top-level enum of a parse result. -/
def firstEnumMember (s : String) : Option EnumMember :=
  match (ParseString s).1 with
  | some a =>
      match a.Declarations with
      | [r] =>
          match r.Enum with
          | some e => e.Members.head?
          | none => none
      | _ => none
  | none => none

/-- An enum with a nested enum member (exercises the missing
`EnumDecl` case of `EnumMember.Decl`). -/
def c1Input : String := "enum E \x7b enum F \x7b \x7d \x7d;"

/-- Two sibling root declarations, for the pruning example. -/
def c2Input : String := "class C \x7b \x7d; import \x22i\x22;"

/-- An enum whose case has no payload type: `CaseDecl.Type` is nil. -/
def c3Input : String := "enum E \x7b case A \x7d;"

def c5WithSep : String := "enum E \x7b case A; case B; \x7d"

def c5NoSep : String := "enum E \x7b case A; case B \x7d"

/-- The two-member enum tree both C5 inputs must produce. -/
def c5Tree : AST :=
  .mk [⟨[], none, none,
        some (.mk ⟨"E", []⟩
          [.mk [] (some ⟨"A", none⟩) none none none none none,
           .mk [] (some ⟨"B", none⟩) none none none none none]),
        none, none⟩]

def c7Input : String := "if cond \x7b a \x7d else \x7b b \x7d"

/-- The token stream of the statement `a`. -/
def c8Toks : List Token := [⟨.ident, "a", 0⟩]

/-- The `Stmt` value the `a` statement parses to: only `Expression`
populated. -/
def c8Stmt : Stmt :=
  .mk none none none none none none none none none (some ⟨⟨"a"⟩⟩)

end Langx


namespace Langx

/-!
## Helper lemmas
-/

/-- The double-quoted string rule cannot complete without a closing
quote: if no `"` occurs after the opening one, the body matcher fails. -/
theorem dqBody_none : ∀ t : List Char, (∀ c ∈ t, c ≠ dq) → dqBody t = none := by
  intro t
  induction t using dqBody.induct with
  | case1 => intro _; rfl
  | case2 tail =>
      intro h
      exact absurd rfl (h (Char.ofNat 34) (by simp))
  | case3 => intro _; rfl
  | case4 cs ih =>
      intro h
      have h' := ih (fun c hc => h c (List.mem_cons_of_mem _ hc))
      simp only [dqBody] at h' ⊢
      rw [h']
      rfl
  | case5 c2 cs2 hne n hsome ih2 =>
      intro h
      have h' := ih2 (fun c hc => h c (List.mem_cons_of_mem _ (List.mem_cons_of_mem _ hc)))
      rw [h'] at hsome
      cases hsome
  | case6 c2 cs2 hne hnone ihcs ihccs =>
      intro h
      have h' := ihccs (fun c hc => h c (List.mem_cons_of_mem _ hc))
      simp only [dqBody, hnone] at h' ⊢
      rw [h']
      rfl
  | case7 c cs hne1 hne2 hne3 hne4 ih =>
      intro h
      have h' := ih (fun x hx => h x (List.mem_cons_of_mem _ hx))
      simp only [dqBody] at h' ⊢
      rw [h']
      rfl

/-- At a position starting with an unterminated `"`, no lexer rule
matches: a lexical error. -/
theorem lexStep_unterminated_dq (prev : Option Char) (tail : List Char)
    (h : ∀ c ∈ tail, c ≠ dq) : lexStep prev (dq :: tail) = none := by
  have hcom : matchComment (dq :: tail) = none := rfl
  have hbs : matchBackslash (dq :: tail) = none := rfl
  have hws : matchWhitespace (dq :: tail) = none := rfl
  have hmod : matchModifier prev (dq :: tail) = none := by
    unfold matchModifier matchWords
    cases boundaryBefore prev <;> rfl
  have hkw : matchKeyword prev (dq :: tail) = none := by
    unfold matchKeyword matchWords
    cases boundaryBefore prev <;> rfl
  have hid : matchIdent prev (dq :: tail) = none := by
    unfold matchIdent
    cases boundaryBefore prev <;> rfl
  have hnum : matchNumber prev (dq :: tail) = none := by
    unfold matchNumber
    cases boundaryBefore prev <;> rfl
  have hstr : matchString (dq :: tail) = none := by
    show Option.map (fun x => x + 1) (dqBody tail) = none
    rw [dqBody_none tail h]
    rfl
  have hnl : matchNewline (dq :: tail) = none := rfl
  have hop : matchOperator (dq :: tail) = none := by
    cases tail <;> rfl
  have hp : matchPunct (dq :: tail) = none := rfl
  unfold lexStep
  rw [hcom, hbs, hws, hmod, hkw, hid, hnum, hstr, hnl, hop, hp]

/-- The typed traversal never hands `TerminateRecursion` back to the
caller: the dispatcher swallows it before invoking the continuation. -/
theorem visitAux_typed_no_terminate (tv : TV) :
    ∀ (fuel : Nat) (task : VTask),
      (visitAux fuel task (typedRawV tv)).2 ≠ TRes.done (some VErr.terminate) := by
  intro fuel
  induction fuel with
  | zero => intro task; simp [visitAux]
  | succ f ih =>
      intro task
      match task with
      | .node g =>
          simp only [visitAux]
          unfold typedRawV
          cases hn : isNilRef g with
          | true => simp
          | false =>
              simp only [Bool.false_eq_true, if_false]
              cases htv : tv g with
              | none => simpa using ih (.seqT (childrenOf g))
              | some e =>
                  cases e with
                  | terminate => simp
                  | user n => simp
      | .seqT [] => simp [visitAux]
      | .seqT (.panicPoint :: rest) => simp [visitAux]
      | .seqT (.child g :: rest) =>
          simp only [visitAux]
          cases hr : (visitAux f (.node g) (typedRawV tv)).2 with
          | done r =>
              cases r with
              | none => simpa [hr] using ih (.seqT rest)
              | some e =>
                  have hg := ih (.node g)
                  rw [hr] at hg
                  simp only [hr]
                  intro hcontra
                  exact hg (by simpa using hcontra)
          | fault => simp [hr]

/-- C8: `Stmt` is a tagged union over exactly the ten arms of
`Stmt.mk`, tried in tag order with `Expression` last: a successful
`Stmt` parse populates exactly one arm, and the `Expression` arm is
populated only when every one of the other nine alternatives has
failed on the same input. -/
theorem pStmtF_spec (prev : PB) (ts rest : List Token) (s : Stmt)
    (h : pStmtF prev ts = some (s, rest)) :
    armsPopulated s = 1 ∧
    (s.Expression.isSome = true →
      prev.pReturnStmt ts = none ∧ prev.pIfStmt ts = none ∧
      prev.pForStmt ts = none ∧ prev.pSwitchStmt ts = none ∧
      prev.pBlock ts = none ∧ prev.pVarDecl ts = none ∧
      prev.pFuncDecl ts = none ∧ prev.pClassDecl ts = none ∧
      prev.pEnumDecl ts = none) := by
  unfold pStmtF at h
  cases h1 : prev.pReturnStmt ts with
  | some p =>
      obtain ⟨v, r⟩ := p
      rw [h1] at h
      simp only [Option.some.injEq, Prod.mk.injEq] at h
      obtain ⟨hs, _⟩ := h
      subst hs
      exact ⟨rfl, by intro hx; simp [Stmt.Expression] at hx⟩
  | none =>
  rw [h1] at h
  cases h2 : prev.pIfStmt ts with
  | some p =>
      obtain ⟨v, r⟩ := p
      rw [h2] at h
      simp only [Option.some.injEq, Prod.mk.injEq] at h
      obtain ⟨hs, _⟩ := h
      subst hs
      exact ⟨rfl, by intro hx; simp [Stmt.Expression] at hx⟩
  | none =>
  rw [h2] at h
  cases h3 : prev.pForStmt ts with
  | some p =>
      obtain ⟨v, r⟩ := p
      rw [h3] at h
      simp only [Option.some.injEq, Prod.mk.injEq] at h
      obtain ⟨hs, _⟩ := h
      subst hs
      exact ⟨rfl, by intro hx; simp [Stmt.Expression] at hx⟩
  | none =>
  rw [h3] at h
  cases h4 : prev.pSwitchStmt ts with
  | some p =>
      obtain ⟨v, r⟩ := p
      rw [h4] at h
      simp only [Option.some.injEq, Prod.mk.injEq] at h
      obtain ⟨hs, _⟩ := h
      subst hs
      exact ⟨rfl, by intro hx; simp [Stmt.Expression] at hx⟩
  | none =>
  rw [h4] at h
  cases h5 : prev.pBlock ts with
  | some p =>
      obtain ⟨v, r⟩ := p
      rw [h5] at h
      simp only [Option.some.injEq, Prod.mk.injEq] at h
      obtain ⟨hs, _⟩ := h
      subst hs
      exact ⟨rfl, by intro hx; simp [Stmt.Expression] at hx⟩
  | none =>
  rw [h5] at h
  cases h6 : prev.pVarDecl ts with
  | some p =>
      obtain ⟨v, r⟩ := p
      rw [h6] at h
      simp only [Option.some.injEq, Prod.mk.injEq] at h
      obtain ⟨hs, _⟩ := h
      subst hs
      exact ⟨rfl, by intro hx; simp [Stmt.Expression] at hx⟩
  | none =>
  rw [h6] at h
  cases h7 : prev.pFuncDecl ts with
  | some p =>
      obtain ⟨v, r⟩ := p
      rw [h7] at h
      simp only [Option.some.injEq, Prod.mk.injEq] at h
      obtain ⟨hs, _⟩ := h
      subst hs
      exact ⟨rfl, by intro hx; simp [Stmt.Expression] at hx⟩
  | none =>
  rw [h7] at h
  cases h8 : prev.pClassDecl ts with
  | some p =>
      obtain ⟨v, r⟩ := p
      rw [h8] at h
      simp only [Option.some.injEq, Prod.mk.injEq] at h
      obtain ⟨hs, _⟩ := h
      subst hs
      exact ⟨rfl, by intro hx; simp [Stmt.Expression] at hx⟩
  | none =>
  rw [h8] at h
  cases h9 : prev.pEnumDecl ts with
  | some p =>
      obtain ⟨v, r⟩ := p
      rw [h9] at h
      simp only [Option.some.injEq, Prod.mk.injEq] at h
      obtain ⟨hs, _⟩ := h
      subst hs
      exact ⟨rfl, by intro hx; simp [Stmt.Expression] at hx⟩
  | none =>
  rw [h9] at h
  cases h10 : prev.pExpr ts with
  | some p =>
      obtain ⟨v, r⟩ := p
      rw [h10] at h
      simp only [Option.some.injEq, Prod.mk.injEq] at h
      obtain ⟨hs, _⟩ := h
      subst hs
      exact ⟨rfl, fun _ => ⟨rfl, rfl, rfl, rfl, rfl, rfl, rfl, rfl, rfl⟩⟩
  | none =>
      rw [h10] at h
      cases h

/-!
## Claims
-/

/-- C1: the claim states that `EnumMember.Decl` returns the single
populated arm for *every* choice of populated arm, a nested `EnumDecl`
included, and that the panic branch is unreachable.  The resolver does
return the populated arm for the CaseDecl, VarDecl, FuncDecl,
ClassDecl and InitialiserDecl arms, but its switch omits the `EnumDecl`
case, so a successfully parsed nested enum member falls through to
`panic("??")` (`none`): the code contradicts the claim (and the
spec's resolver contract) on the EnumDecl arm. -/
theorem enumMember_decl_nested_enum_panics :
    (∀ (mods : Modifiers) (c : CaseDecl),
        (EnumMember.mk mods (some c) none none none none none).Decl = some (.caseDecl c)) ∧
    (∀ (mods : Modifiers) (v : VarDecl),
        (EnumMember.mk mods none (some v) none none none none).Decl = some (.varDecl v)) ∧
    (∀ (mods : Modifiers) (f : FuncDecl),
        (EnumMember.mk mods none none (some f) none none none).Decl = some (.funcDecl f)) ∧
    (∀ (mods : Modifiers) (c : ClassDecl),
        (EnumMember.mk mods none none none (some c) none none).Decl = some (.classDecl c)) ∧
    (∀ (mods : Modifiers) (i : InitialiserDecl),
        (EnumMember.mk mods none none none none none (some i)).Decl = some (.initialiserDecl i)) ∧
    (∀ (mods : Modifiers) (e : EnumDecl),
        (EnumMember.mk mods none none none none (some e) none).Decl = none) ∧
    parseOk c1Input = true ∧
    (firstEnumMember c1Input).map (fun m => (m.EnumDecl.isSome, m.Decl)) =
      some (true, none) :=
  ⟨fun _ _ => rfl, fun _ _ => rfl, fun _ _ => rfl, fun _ _ => rfl, fun _ _ => rfl,
   fun _ _ => rfl, rfl, rfl⟩

/-- C2: `TerminateRecursion` returned by a typed visitor method prunes
— the node's children are not descended into (the trace at the pruned
node is just that node), the walk of the node reports success so
enclosing loops continue with the siblings, and the sentinel is never
returned to the caller; any other non-nil error aborts the traversal
and is returned verbatim.  The concrete conjuncts replay the spec's
example: pruning at `ClassDecl` skips the class's members but still
visits the sibling root `import` declaration, while an ordinary error
at `ClassDecl` stops the traversal there and is handed back. -/
theorem visit_sentinel_prunes_other_errors_abort :
    (∀ (fuel : Nat) (task : VTask) (tv : TV),
        (visitAux fuel task (typedRawV tv)).2 ≠ TRes.done (some TerminateRecursion)) ∧
    (∀ (fuel : Nat) (g : GNode) (tv : TV), isNilRef g = false →
        tv g = some TerminateRecursion →
        Visit (fuel + 1) g tv = ([g], .done none)) ∧
    (∀ (fuel : Nat) (g : GNode) (tv : TV) (n : Nat), isNilRef g = false →
        tv g = some (.user n) →
        Visit (fuel + 1) g tv = ([g], .done (some (.user n)))) ∧
    typedKinds (Visit 64 (.ast (astOf c2Input)) tvPrune) =
      [.ast, .rootDecl, .classDecl, .rootDecl, .importDecl] ∧
    (Visit 64 (.ast (astOf c2Input)) tvPrune).2 = .done none ∧
    typedKinds (Visit 64 (.ast (astOf c2Input)) tvErr) = [.ast, .rootDecl, .classDecl] ∧
    (Visit 64 (.ast (astOf c2Input)) tvErr).2 = .done (some (.user 7)) := by
  refine ⟨fun fuel task tv => visitAux_typed_no_terminate tv fuel task, ?_, ?_, rfl, rfl, rfl, rfl⟩
  · intro fuel g tv hn ht
    simp only [TerminateRecursion] at ht
    unfold Visit
    simp only [visitAux]
    unfold typedRawV
    simp [hn, ht]
  · intro fuel g tv n hn ht
    unfold Visit
    simp only [visitAux]
    unfold typedRawV
    simp [hn, ht]

/-- Witness for C2: the pruning and aborting parts applied to a
concrete leaf node and concrete visitors. -/
theorem visit_sentinel_prunes_other_errors_abort_witness :
    Visit 1 (.importDecl ⟨"", ""⟩) (fun _ => some TerminateRecursion) =
      ([.importDecl ⟨"", ""⟩], .done none) ∧
    Visit 1 (.importDecl ⟨"", ""⟩) (fun _ => some (.user 3)) =
      ([.importDecl ⟨"", ""⟩], .done (some (.user 3))) :=
  ⟨visit_sentinel_prunes_other_errors_abort.2.1 0 _ _ rfl rfl,
   visit_sentinel_prunes_other_errors_abort.2.2.1 0 _ _ 3 rfl rfl⟩

/-- C3: the claim states that absent optional children are silently
skipped by both traversals for every node type.  The code does skip a
typed-nil `*Reference`/`*Expr` child in the *typed* traversal (their
`accept` methods have pointer receivers and the dispatcher's nil check
fires — the `let a` conjunct), but for an absent child whose node type
has a value-receiver `accept` the call `node.accept(visit)` inside
`VisitFunc` dereferences the nil pointer before any check can run:
walking the parse of `enum E { case A };` (nil `CaseDecl.Type`,
`*TypeDecl`) or of `if a { }` (nil `IfStmt.Else`, `*Block`) panics in
both the typed and the raw traversal, and the raw traversal does not
skip even the pointer-receiver nils once the continuation touches the
nil receiver's fields. -/
theorem absent_optional_child_panics_not_skipped :
    parseOk c3Input = true ∧
    (Visit 64 (.ast (astOf c3Input)) DefaultVisitor).2 = .fault ∧
    (VisitFunc 64 (.ast (astOf c3Input)) rawGo).2 = .fault ∧
    ((stmtOf "if a \x7b \x7d").map (fun s => (Visit 64 (.stmt s) DefaultVisitor).2)) =
      some .fault ∧
    ((stmtOf "let a").map (fun s => (Visit 64 (.stmt s) DefaultVisitor).2)) =
      some (.done none) ∧
    ((stmtOf "let a").map (fun s => (VisitFunc 64 (.stmt s) rawGo).2)) =
      some .fault :=
  ⟨rfl, rfl, rfl, rfl, rfl, rfl⟩

/-- C4: `a >= b` lexes (after eliding whitespace) to exactly
Ident(a), Operator(>=), Ident(b) — one two-character operator token,
never the split `>`, `=` pair. -/
theorem lex_ge_two_char_operator :
    (lexString "a >= b").map (fun ts => kindText (visibleTokens ts)) =
      .ok [(.ident, "a"), (.operator, ">="), (.ident, "b")] ∧
    ([(.ident, "a"), (.operator, ">="), (.ident, "b")] : List (TokKind × String)) ≠
      [(.ident, "a"), (.operator, ">"), (.operator, "="), (.ident, "b")] :=
  ⟨rfl, by decide⟩

/-- C5: the enum body with and without a trailing `;` after the last
member parse successfully to the same two-member `EnumDecl` tree
(source positions are not modelled, so "equal up to positions" is
plain equality here). -/
theorem trailing_separator_equivalence :
    ParseString c5WithSep = (some c5Tree, none) ∧
    ParseString c5NoSep = (some c5Tree, none) :=
  ⟨rfl, rfl⟩

/-- C6: at the root, `let` requires its `;` terminator while class,
import, enum and fn declarations parse both with and without one. -/
theorem root_let_requires_terminator :
    parseOk "let a" = false ∧ parseOk "let a;" = true ∧
    parseOk "class C \x7b \x7d" = true ∧ parseOk "class C \x7b \x7d;" = true ∧
    parseOk "import \x22x\x22" = true ∧ parseOk "import \x22x\x22;" = true ∧
    parseOk "enum E \x7b \x7d" = true ∧ parseOk "enum E \x7b \x7d;" = true ∧
    parseOk "fn f() \x7b \x7d" = true ∧ parseOk "fn f() \x7b \x7d;" = true :=
  ⟨rfl, rfl, rfl, rfl, rfl, rfl, rfl, rfl, rfl, rfl⟩

/-- C7: for `if cond { a } else { b }` the typed visitor methods run
in the order condition (`Expr`/`Reference` for `cond`), then the
then-block and its statement `a`, then the else-block and its
statement `b`. -/
theorem if_else_visit_order :
    (stmtOf c7Input).map (fun s => typedKinds (Visit 64 (.stmt s) DefaultVisitor)) =
      some [.stmt, .ifStmt, .expr, .reference, .block, .stmt, .expr, .reference,
            .block, .stmt, .expr, .reference] :=
  rfl

/-- Witness for C8: the statement `a` parses into the `Expression`
arm; instantiating the theorem shows exactly one arm populated and all
nine earlier alternatives failing on that input. -/
theorem pStmtF_spec_witness :
    armsPopulated c8Stmt = 1 ∧
    ((mkPB 8).pReturnStmt c8Toks = none ∧ (mkPB 8).pIfStmt c8Toks = none ∧
     (mkPB 8).pForStmt c8Toks = none ∧ (mkPB 8).pSwitchStmt c8Toks = none ∧
     (mkPB 8).pBlock c8Toks = none ∧ (mkPB 8).pVarDecl c8Toks = none ∧
     (mkPB 8).pFuncDecl c8Toks = none ∧ (mkPB 8).pClassDecl c8Toks = none ∧
     (mkPB 8).pEnumDecl c8Toks = none) :=
  have h := pStmtF_spec (mkPB 8) c8Toks [] c8Stmt (by rfl)
  ⟨h.1, h.2 (by rfl)⟩

/-- C9: a double-quoted literal that is never terminated (no further
`"` before end of input) matches no lexer rule at its opening quote:
lexing fails with a `LexErr` carrying that position, for any previous
character, offset and fuel; concretely, an input consisting solely of
the unterminated literal fails at offset 0. -/
theorem unterminated_string_is_lex_error :
    (∀ (fuel pos : Nat) (prev : Option Char) (tail : List Char),
        (∀ c ∈ tail, c ≠ dq) →
        lexGo (fuel + 1) prev pos (dq :: tail) = .error ⟨pos⟩) ∧
    lexString "\x22abc" = .error ⟨0⟩ := by
  constructor
  · intro fuel pos prev tail h
    simp only [lexGo, lexStep_unterminated_dq prev tail h]
  · rfl

/-- Witness for C9: the universal part applied at offset 5 to the
unterminated literal `"ab`. -/
theorem unterminated_string_is_lex_error_witness :
    lexGo 8 none 5 (dq :: ['a', 'b']) = .error ⟨5⟩ :=
  unterminated_string_is_lex_error.1 7 5 none ['a', 'b'] (by decide)

/-- C10: `Parse` and `ParseString` always return a populated AST
value — also when they return an error (the Go code allocates
`&AST{}` up front and returns that pointer unconditionally). -/
theorem parse_always_returns_ast :
    ∀ s : String, (ParseString s).1.isSome = true ∧ (Parse s).1.isSome = true := by
  intro s
  have hps : (ParseString s).1.isSome = true := by
    unfold ParseString
    cases h : grammarTokens s with
    | error e => simp
    | ok ts =>
        cases h2 : (mkPB (fuelFor ts)).pAST ts with
        | none => simp [h2]
        | some p =>
            obtain ⟨a, rest⟩ := p
            cases rest <;> simp [h2]
  exact ⟨hps, by unfold Parse; exact hps⟩

end Langx
